import Mathlib

/-!
Verification of the docstrap reconciliation/migration core.

This file gives a shallow embedding of the relevant Python modules:

* `src/docstrap/core/formatter.py`  (`FilenameFormatter`)
* `src/docstrap/fs/handler.py`      (`InteractiveFileHandler`, `SilentFileHandler`,
  `DryRunFileHandler`)
* `src/docstrap/fs/migrator.py`     (`DirectoryMigrator`)
* `src/docstrap/core/manager.py`    (`DocumentationManager`)

File systems are modelled as finite maps from component-lists to file
contents together with a list of explicitly created (possibly empty)
directories.  Operator interaction (`input()`) is modelled as a list of
pending responses; `none` stands for `KeyboardInterrupt`/`EOFError`.
Strings are manipulated through their character lists; ASCII semantics of
`str.lower`, `str.strip`, regexes `[^a-z0-9-]`, `^\d+_` etc. are spelled
out character by character.
-/

/-! ## Character helpers (ASCII semantics of the Python string operations) -/

/-- `str.lower` on one character (ASCII): maps `A`-`Z` (65-90) to `a`-`z`. -/
def pyLowerChar (c : Char) : Char :=
  if 65 ≤ c.toNat ∧ c.toNat ≤ 90 then Char.ofNat (c.toNat + 32) else c

/-- First character of `str.capitalize`: maps `a`-`z` (97-122) to `A`-`Z`. -/
def pyUpperChar (c : Char) : Char :=
  if 97 ≤ c.toNat ∧ c.toNat ≤ 122 then Char.ofNat (c.toNat - 32) else c

/-- The regex class `\d` (ASCII): `0`-`9`, i.e. code points 48-57. -/
def isDigitChar (c : Char) : Bool :=
  48 ≤ c.toNat && c.toNat ≤ 57

/-- Characters kept by `re.sub(r"[^a-z0-9\-]", "", _)`: `a`-`z`, `0`-`9`, `-`. -/
def isAllowedChar (c : Char) : Bool :=
  (97 ≤ c.toNat && c.toNat ≤ 122) || (48 ≤ c.toNat && c.toNat ≤ 57) || c.toNat == 45

/-- The dash character `-` (code point 45). -/
def isDash (c : Char) : Bool :=
  c.toNat == 45

/-- Remove leading and trailing characters satisfying `p`
(the semantics of Python's `str.strip`). -/
def trimBy (p : Char → Bool) (l : List Char) : List Char :=
  (( l.reverse.dropWhile p).reverse).dropWhile p

/-- Collapse runs of dashes to a single dash: `re.sub(r"-+", "-", _)`. -/
def collapseDashes : List Char → List Char
  | [] => []
  | [c] => [c]
  | c :: d :: rest =>
    if isDash c && isDash d then collapseDashes (d :: rest)
    else c :: collapseDashes (d :: rest)

/-- `filename.rsplit(".", 1)` as used by `FilenameFormatter`: returns
`(base, ext)` where `ext` is empty when there is no dot and otherwise
carries its leading dot, splitting at the last dot. -/
def splitExt (l : List Char) : List Char × List Char :=
  match l.reverse.dropWhile (fun c => !(c.toNat == 46)) with
  | [] => (l, [])
  | _ :: baseRev =>
    (baseRev.reverse, '.' :: (l.reverse.takeWhile (fun c => !(c.toNat == 46))).reverse)

/-! ## `FilenameFormatter` (src/docstrap/core/formatter.py) -/

/-- The base-name pipeline of `FilenameFormatter.sanitize` (lines 46-53):
lower-case, spaces to dashes, keep only `[a-z0-9-]`, collapse dash runs,
strip outer dashes. -/
def sanitizeBase (l : List Char) : List Char :=
  trimBy isDash (collapseDashes
    (((l.map pyLowerChar).map (fun c => if c.toNat == 32 then '-' else c)).filter isAllowedChar))

/-- `FilenameFormatter.sanitize` on the character list (split off the
extension, sanitize the base, re-attach the untouched extension). -/
def sanitizeCore (l : List Char) : List Char :=
  sanitizeBase (splitExt l).1 ++ (splitExt l).2

/-- `FilenameFormatter.sanitize`; `none` models the `ValueError` raised on
an empty filename. -/
def sanitize (s : String) : Option String :=
  if s = "" then none else some ⟨sanitizeCore s.data⟩

/-- `FilenameFormatter.get_base_name`: `re.sub(r"^\d+_", "", name)`.  The
regex matches exactly when a nonempty maximal leading digit run is
followed by an underscore, and removes that run and the underscore. -/
def get_base_name (s : String) : String :=
  if (s.data.takeWhile isDigitChar).isEmpty then s
  else
    match s.data.dropWhile isDigitChar with
    | c :: rest => if c = '_' then ⟨rest⟩ else s
    | [] => s

/-- The `^\d+_` test used by `_cleanup_mismatched_content`
(`re.match(r"^\d+_", dir_path.name)`). -/
def hasNumericPref (s : String) : Bool :=
  !(s.data.takeWhile isDigitChar).isEmpty &&
    ((s.data.dropWhile isDigitChar).head? == some '_')

/-- Python `str.split()` (whitespace tokenisation, empty tokens dropped). -/
def wordsAux : List Char → List Char → List (List Char)
  | [], acc => if acc.isEmpty then [] else [acc.reverse]
  | c :: cs, acc =>
    if c.isWhitespace then
      if acc.isEmpty then wordsAux cs [] else acc.reverse :: wordsAux cs []
    else wordsAux cs (c :: acc)

/-- `str.split()` on a character list. -/
def wordsOf (l : List Char) : List (List Char) :=
  wordsAux l []

/-- Python `str.capitalize`: first character upper-cased, rest lower-cased. -/
def pyCapitalize : List Char → List Char
  | [] => []
  | c :: cs => pyUpperChar c :: cs.map pyLowerChar

/-- `FilenameFormatter.to_title`; `none` models the `ValueError` on empty
input.  Drops the extension, dashes to spaces, capitalises each token,
joins with single spaces. -/
def to_title (s : String) : Option String :=
  if s = "" then none
  else
    let base := (splitExt s.data).1
    let spaced := base.map (fun c => if c.toNat == 45 then ' ' else c)
    some ⟨List.intercalate [' '] ((wordsOf spaced).map pyCapitalize)⟩

/-! ## Configuration model (src/docstrap/config/models.py) -/

/-- `NumberingConfig` (models.py lines 17-25).  Field names are shortened
(`initialPref` = `initial_prefix`, `dirStartPref` = `dir_start_prefix`,
`stepPref` = `prefix_step`, `padWidth` = `padding_width`). -/
structure NumberingConfig where
  enabled : Bool
  initialPref : Nat
  dirStartPref : Nat
  stepPref : Nat
  padWidth : Nat
deriving DecidableEq, Repr

/-- `DocumentStructure` (models.py lines 57-62): insertion-ordered mapping
of directory name to file names, plus ordered top-level file names. -/
structure DocumentStructure where
  directories : List (String × List String)
  topLevelFiles : List String
deriving DecidableEq, Repr

/-- `StructureConfig` (models.py lines 149-158), restricted to the fields
the manager consults (`docsDir` = `docs_dir`, `docStructure` = `structure`,
`useMarkdownHeadings` = `use_markdown_headings`). -/
structure StructureConfig where
  docsDir : String
  numbering : NumberingConfig
  docStructure : DocumentStructure
  useMarkdownHeadings : Bool
deriving DecidableEq, Repr

/-! ## File-system and interaction model -/

/-- A path, as the list of components below the process root. -/
abbrev FsPath := List String

/-- A file-system state: regular files with contents (an association list,
kept in creation order) and explicitly created directories (which may be
empty; every proper ancestor of a file is implicitly a directory). -/
structure FS where
  files : List (FsPath × String)
  dirs : List FsPath
deriving DecidableEq, Repr

/-- A whole simulation state: file system plus pending operator responses
(`none` models `KeyboardInterrupt`/`EOFError`). -/
structure SimState where
  fs : FS
  console : List (Option String)
deriving DecidableEq, Repr

/-- Is there a regular file at `p`? -/
def FS.isFile (fs : FS) (p : FsPath) : Bool :=
  fs.files.any (fun e => e.1 == p)

/-- `Path.read_text`-style lookup of a file's content. -/
def FS.lookupFile (fs : FS) (p : FsPath) : Option String :=
  (fs.files.find? (fun e => e.1 == p)).map Prod.snd

/-- Is `p` a directory?  The root is; explicit directory entries are; and
so is every proper ancestor of a file or of an explicit directory. -/
def FS.isDir (fs : FS) (p : FsPath) : Bool :=
  p.isEmpty || fs.dirs.any (fun d => p.isPrefixOf d) ||
    fs.files.any (fun e => p.isPrefixOf e.1 && !(p == e.1))

/-- `Path.exists`. -/
def FS.pathExists (fs : FS) (p : FsPath) : Bool :=
  fs.isFile p || fs.isDir p

/-- Names of the immediate children of `p` (`Path.iterdir`), in
first-occurrence order over files then explicit directories. -/
def FS.childNames (fs : FS) (p : FsPath) : List String :=
  ((fs.files.map Prod.fst ++ fs.dirs).filterMap (fun q =>
    if p.isPrefixOf q ∧ p.length < q.length then (q.drop p.length).head? else none)).dedup

/-- `Path.iterdir`: the immediate child paths of `p`. -/
def FS.iterdir (fs : FS) (p : FsPath) : List FsPath :=
  (fs.childNames p).map (fun n => p ++ [n])

/-- The regular files strictly below `p` (`Path.rglob("*")` restricted to
`is_file()`), with their contents, in file-table order. -/
def FS.filesUnder (fs : FS) (p : FsPath) : List (FsPath × String) :=
  fs.files.filter (fun e => p.isPrefixOf e.1 && !(p == e.1))

/-- All nonempty initial segments of a path, shortest first. -/
def initSegs (p : FsPath) : List FsPath :=
  (List.range p.length).map (fun i => p.take (i + 1))

/-- `Path.mkdir(parents=True, exist_ok=True)`: record `p` and any missing
ancestors as directories. -/
def FS.mkdirParents (fs : FS) (p : FsPath) : FS :=
  { fs with dirs := fs.dirs ++ (initSegs p).filter (fun q => !(fs.isDir q)) }

/-- `path.write_text(content)` / `write_bytes`: create or overwrite the
file at `p`. -/
def FS.writeFile (fs : FS) (p : FsPath) (content : String) : FS :=
  if fs.isFile p then
    { fs with files := fs.files.map (fun e => if e.1 == p then (p, content) else e) }
  else
    { fs with files := fs.files ++ [(p, content)] }

/-- `shutil.rmtree`: remove the directory `p` and everything below it. -/
def FS.removeTree (fs : FS) (p : FsPath) : FS :=
  { files := fs.files.filter (fun e => !(p.isPrefixOf e.1)),
    dirs := fs.dirs.filter (fun d => !(p.isPrefixOf d)) }

/-- Consume one operator response (`input()`); an empty queue behaves like
end-of-input. -/
def readLine (s : SimState) : Option String × SimState :=
  match s.console with
  | [] => (none, s)
  | a :: rest => (a, { s with console := rest })

/-- `str.lower` on a whole string. -/
def pyLowerStr (s : String) : String :=
  ⟨s.data.map pyLowerChar⟩

/-- `str.strip()`. -/
def pyStrip (s : String) : String :=
  ⟨trimBy Char.isWhitespace s.data⟩

/-- `response.lower().strip() == "y"`, the affirmative test used by the
interactive prompts; `none` (interrupt/EOF) is a decline. -/
def isYes (ans : Option String) : Bool :=
  match ans with
  | none => false
  | some r => pyStrip (pyLowerStr r) == "y"

/-- Python `int(s)` on an already-stripped string (optional sign, decimal
digits); `none` models `ValueError`. -/
def pyToInt (s : String) : Option Int :=
  let digitsVal : List Char → Option Nat := fun ds =>
    if !ds.isEmpty && ds.all isDigitChar then
      some (ds.foldl (fun a c => a * 10 + (c.toNat - 48)) 0)
    else none
  match s.data with
  | '-' :: ds => (digitsVal ds).map (fun n => -(n : Int))
  | '+' :: ds => (digitsVal ds).map (fun n => (n : Int))
  | ds => (digitsVal ds).map (fun n => (n : Int))

/-! ## File operation handlers (src/docstrap/fs/handler.py) -/

/-- The three interchangeable handler policies. -/
inductive HandlerKind where
  | interactive
  | silent
  | dryRun
deriving DecidableEq, Repr

/-- `FileHandler.create` for each policy.  `InteractiveFileHandler.create`
(handler.py lines 65-72) and `SilentFileHandler.create` (lines 126-133)
both ensure the parent directories and write unconditionally, consulting
no prompt; `DryRunFileHandler.create` (lines 156-160) only logs. -/
def handlerCreate (k : HandlerKind) (p : FsPath) (content : String) (s : SimState) : SimState :=
  match k with
  | .interactive | .silent =>
    { s with fs := (s.fs.mkdirParents p.dropLast).writeFile p content }
  | .dryRun => s

/-- `FileHandler.remove_dir` for each policy.  The interactive handler
asks `_confirm_removal` first (handler.py lines 88-100); the silent one
removes outright (lines 144-151); the dry-run one only logs. -/
def handlerRemoveDir (k : HandlerKind) (p : FsPath) (s : SimState) : SimState :=
  match k with
  | .interactive =>
    if !(s.fs.pathExists p) then s
    else
      let rs := readLine s
      if isYes rs.1 then { rs.2 with fs := rs.2.fs.removeTree p } else rs.2
  | .silent =>
    if s.fs.pathExists p then { s with fs := s.fs.removeTree p } else s
  | .dryRun => s

/-! ## Error taxonomy -/

/-- The exception kinds the embedded code can signal:
`FileSystemError` (fs/handler.py line 15), `ValueError` (raised by the
formatter on empty names), and `DocumentationError`
(config/models.py line 13, the manager's single failure kind). -/
inductive MErr where
  | fileSystemError (msg : String)
  | valueError (msg : String)
  | documentationError (msg : String)
deriving DecidableEq, Repr

/-- The message carried by an exception (`str(e)`). -/
def MErr.message : MErr → String
  | .fileSystemError m => m
  | .valueError m => m
  | .documentationError m => m

/-! ## `DirectoryMigrator` (src/docstrap/fs/migrator.py) -/

/-- `str(path)`: the string form used when Python sorts paths. -/
def pathKey (p : FsPath) : String :=
  String.intercalate "/" p

/-- The path ordering used by `sorted` on `pathlib` paths. -/
def pathLe (p q : FsPath) : Prop :=
  pathKey p ≤ pathKey q

instance : DecidableRel pathLe := fun p q => inferInstanceAs (Decidable (pathKey p ≤ pathKey q))

instance : IsTotal FsPath pathLe := ⟨fun a b => le_total (pathKey a) (pathKey b)⟩

instance : IsTrans FsPath pathLe := ⟨fun _ _ _ h1 h2 => le_trans h1 h2⟩

/-- The directory names of the ISMS glob patterns (migrator.py lines
52-59): `policies`, `procedures`, `records`. -/
def ismsNames : List String :=
  ["policies", "procedures", "records"]

/-- Does a name match `[0-9][0-9][0-9]_<isms name>`? -/
def isNumberedIsmsName (s : String) : Bool :=
  match s.data with
  | a :: b :: c :: '_' :: rest =>
    isDigitChar a && isDigitChar b && isDigitChar c && ismsNames.contains ⟨rest⟩
  | _ => false

/-- Does a path relative to a candidate directory match one of the glob
patterns `**/policies/*.md`, `**/[0-9][0-9][0-9]_policies/*.md`, ... ?
(`**` matches any number of directories, including zero.) -/
def relMatchesIsms (rel : FsPath) : Bool :=
  match rel.reverse with
  | f :: d :: _ => ".md".data.isSuffixOf f.data && (ismsNames.contains d || isNumberedIsmsName d)
  | _ => false

/-- `any(dir_path.glob(pattern)) for pattern in patterns` (migrator.py
lines 71-74): some regular file below `d` matches an ISMS pattern. -/
def FS.hasIsmsContent (fs : FS) (d : FsPath) : Bool :=
  fs.files.any (fun e => d.isPrefixOf e.1 && relMatchesIsms (e.1.drop d.length))

/-- One iteration of the `check_paths` loop of `find_isms_directories`
(migrator.py lines 61-74): if `base` exists, its immediate children that
are directories, differ from the excluded path and contain ISMS content. -/
def fromBaseCandidates (fs : FS) (exclude base : FsPath) : List FsPath :=
  if fs.pathExists base then
    (fs.iterdir base).filter (fun d => fs.isDir d && d != exclude && fs.hasIsmsContent d)
  else []

/-- `DirectoryMigrator.find_isms_directories` (migrator.py lines 31-77):
for each of `project_root` and `project_root / "docs"` that exists, scan
its immediate subdirectories; keep those that are directories, differ from
`new_dir` and contain ISMS-patterned content; dedupe (the Python set) and
sort. -/
def findIsmsDirectories (fs : FS) (projectRoot newDir : FsPath) : List FsPath :=
  List.insertionSort pathLe
    ((fromBaseCandidates fs newDir projectRoot ++
      fromBaseCandidates fs newDir (projectRoot ++ ["docs"])).dedup)

/-- Does `new_dir` have "any content that isn't just empty subdirectories"
(migrator.py lines 97-102): a regular file anywhere below it. -/
def FS.hasContentFile (fs : FS) (p : FsPath) : Bool :=
  fs.files.any (fun e => p.isPrefixOf e.1 && !(p == e.1))

/-- Every path entry below `p` (`Path.rglob("*")`), including the implicit
ancestors of files. -/
def FS.allUnder (fs : FS) (p : FsPath) : List FsPath :=
  (((fs.files.map Prod.fst ++ fs.dirs).flatMap initSegs).dedup).filter
    (fun q => p.isPrefixOf q && !(p == q))

/-- `DirectoryMigrator._cleanup_empty_dirs` (migrator.py lines 143-155):
walk everything below `directory` deepest-first (reverse path-string
order) and `rmdir` each directory that is empty at that moment. -/
def FS.cleanupEmptyDirs (fs : FS) (directory : FsPath) : FS :=
  if !(fs.pathExists directory) then fs
  else
    ((List.insertionSort pathLe (fs.allUnder directory)).reverse).foldl
      (fun f q =>
        if f.isDir q && (f.iterdir q).isEmpty then
          { f with dirs := f.dirs.filter (fun d => d != q) }
        else f)
      fs

/-- `DirectoryMigrator._confirm_migration` / `_confirm_removal`
(migrator.py lines 157-174 and 214-230): one `input()` whose lowered,
stripped answer must be `y`; interrupt or EOF declines. -/
def confirmYes (s : SimState) : Bool × SimState :=
  let rs := readLine s
  (isYes rs.1, rs.2)

/-- `DirectoryMigrator._migrate_directory` (migrator.py lines 176-212):
create the destination (with parents), copy every regular file below
`source` to the same relative path below `destination` by a direct
`write_bytes` (the injected handler is *not* used for the copies), then
ask whether to remove the source and, if confirmed, delegate to the
handler's `remove_dir`. -/
def migrateDirectory (k : HandlerKind) (source destination : FsPath) (s : SimState) : SimState :=
  let s1 : SimState := { s with fs := s.fs.mkdirParents destination }
  let s2 := (s1.fs.filesUnder source).foldl
    (fun st e =>
      let dest := destination ++ e.1.drop source.length
      { st with fs := (st.fs.mkdirParents dest.dropLast).writeFile dest e.2 })
    s1
  let cs := confirmYes s2
  if cs.1 then handlerRemoveDir k source cs.2 else cs.2

/-- The interactive tail of `handle_directory_change` (migrator.py lines
106-141): pick a source directory (by enumerated selection when several,
by yes/no confirmation when one), clean empty directories at the target,
and migrate.  Every decline, invalid selection, interrupt or end-of-input
returns without mutation. -/
def migratePhase (k : HandlerKind) (existingDirs : List FsPath) (newDir : FsPath)
    (s : SimState) : SimState :=
  let pick : Option FsPath × SimState :=
    if existingDirs.length > 1 then
      let rs := readLine s
      match rs.1 with
      | none => (none, rs.2)
      | some choice =>
        let choice := pyStrip choice
        if pyLowerStr choice == "n" then (none, rs.2)
        else
          match pyToInt choice with
          | none => (none, rs.2)
          | some i =>
            if 0 ≤ i - 1 ∧ i - 1 < (existingDirs.length : Int) then
              ((existingDirs.drop (i - 1).toNat).head?, rs.2)
            else (none, rs.2)
    else
      let cs := confirmYes s
      (if cs.1 then existingDirs.head? else none, cs.2)
  match pick.1 with
  | none => pick.2
  | some oldDir =>
    let s2 :=
      if pick.2.fs.pathExists newDir then
        { pick.2 with fs := pick.2.fs.cleanupEmptyDirs newDir }
      else pick.2
    migrateDirectory k oldDir newDir s2

/-- `DirectoryMigrator.handle_directory_change` (migrator.py lines
79-141).  Returns the raised exception, if any, together with the
resulting state. -/
def handleDirectoryChange (k : HandlerKind) (projectRoot newDir : FsPath)
    (s : SimState) : Option MErr × SimState :=
  let existingDirs := findIsmsDirectories s.fs projectRoot newDir
  if existingDirs.isEmpty then (none, s)
  else if s.fs.pathExists newDir && s.fs.hasContentFile newDir then
    (some (.fileSystemError ("New directory " ++ pathKey newDir ++
      " already exists and contains files")), s)
  else (none, migratePhase k existingDirs newDir s)

/-! ## `DocumentationManager` (src/docstrap/core/manager.py) -/

/-- `f"{n:0{w}d}"` for a natural number: the decimal digits, left-padded
with zeros to width `w`. -/
def padZeros (w : Nat) (digits : String) : String :=
  ⟨List.replicate (w - digits.data.length) '0' ++ digits.data⟩

/-- `DocumentationManager._get_numbered_name` (manager.py lines 182-195). -/
def getNumberedName (n : NumberingConfig) (filename : String) (index : Nat) : String :=
  padZeros n.padWidth (Nat.repr (index * n.stepPref)) ++ "_" ++ filename

/-- `DocumentationManager._get_directory_path` (manager.py lines 197-213). -/
def getDirectoryPath (n : NumberingConfig) (docsDir : FsPath) (dirName : String)
    (index : Nat) : FsPath :=
  if n.enabled then
    docsDir ++ [padZeros n.padWidth (Nat.repr (index * n.dirStartPref)) ++ "_" ++ dirName]
  else docsDir ++ [dirName]

/-- The final-name computation of `_create_file` (manager.py line 173). -/
def finalFileName (n : NumberingConfig) (sanitized : String) (index : Nat) : String :=
  if n.enabled then getNumberedName n sanitized index else sanitized

/-- `str.endswith`. -/
def strEndsWith (s suffixStr : String) : Bool :=
  suffixStr.data.isSuffixOf s.data

/-- `DocumentationManager._create_file` (manager.py lines 163-180):
sanitize, optionally number, derive a heading from `to_title` when
markdown headings are on and the configured name ends in `.md`, and hand
the write to the injected handler's `create`. -/
def createFile (cfg : StructureConfig) (k : HandlerKind) (parent : FsPath)
    (filename : String) (index : Nat) (s : SimState) : Option MErr × SimState :=
  match sanitize filename with
  | none => (some (.valueError "Filename cannot be empty"), s)
  | some sanitized =>
    if cfg.useMarkdownHeadings && strEndsWith filename ".md" then
      match to_title sanitized with
      | none => (some (.valueError "Filename cannot be empty"), s)
      | some title =>
        (none, handlerCreate k (parent ++ [finalFileName cfg.numbering sanitized index])
          ("# " ++ title ++ "\n") s)
    else
      (none, handlerCreate k (parent ++ [finalFileName cfg.numbering sanitized index]) "" s)

/-- The 1-based `enumerate` loop over a list of configured file names,
stopping at the first exception. -/
def createFilesLoop (cfg : StructureConfig) (k : HandlerKind) (parent : FsPath)
    (files : List String) (index : Nat) (s : SimState) : Option MErr × SimState :=
  match files with
  | [] => (none, s)
  | f :: rest =>
    match createFile cfg k parent f index s with
    | (some e, t) => (some e, t)
    | (none, t) => createFilesLoop cfg k parent rest (index + 1) t

/-- `DocumentationManager._create_top_level_files` (manager.py lines
130-146): first force-create an unnumbered `README.md` when absent, then
create the configured top-level files with 1-based indices. -/
def createTopLevelFiles (cfg : StructureConfig) (k : HandlerKind) (docsDir : FsPath)
    (s : SimState) : Option MErr × SimState :=
  createFilesLoop cfg k docsDir cfg.docStructure.topLevelFiles 1
    (if s.fs.pathExists (docsDir ++ ["README.md"]) then s
     else handlerCreate k (docsDir ++ ["README.md"]) "" s)

/-- `Path.mkdir(exist_ok=True)` (no `parents`): ok when `p` is already a
directory, `FileExistsError` when it is a file, `FileNotFoundError` when
the parent is missing. -/
def mkdirExistOk (s : SimState) (p : FsPath) : Option MErr × SimState :=
  if s.fs.isFile p then (some (.fileSystemError "FileExistsError"), s)
  else if s.fs.isDir p then (none, s)
  else if s.fs.pathExists p.dropLast then
    (none, { s with fs := { s.fs with dirs := s.fs.dirs ++ [p] } })
  else (some (.fileSystemError "FileNotFoundError"), s)

/-- Append `p` to the group keyed by the stripped base name of its last
component (the `dir_groups` dictionary of manager.py lines 89-94,
insertion-ordered). -/
def addToGroup : List (String × List FsPath) → String → FsPath → List (String × List FsPath)
  | [], key, p => [(key, [p])]
  | (k0, ps) :: rest, key, p =>
    if k0 = key then (k0, ps ++ [p]) :: rest else (k0, ps) :: addToGroup rest key p

/-- The last component of a path (`Path.name`; empty for the root). -/
def lastName (p : FsPath) : String :=
  (p.getLast?).getD ""

/-- The body run for one group of same-base-name directories
(manager.py lines 97-128): with several members, ask which to keep and
remove the rest through the handler; with a single member, remove it
outright when its numbered-ness disagrees with the numbering policy. -/
def cleanupGroup (cfg : StructureConfig) (k : HandlerKind) (st : SimState)
    (ds : List FsPath) : SimState :=
  let ds := List.insertionSort pathLe ds
  if ds.length > 1 then
    let rs := readLine st
    match rs.1 with
    | none => rs.2
    | some response =>
      let response := pyStrip response
      if pyLowerStr response == "n" then rs.2
      else
        match pyToInt response with
        | none => rs.2
        | some i =>
          if 0 ≤ i - 1 ∧ i - 1 < (ds.length : Int) then
            ((List.range ds.length).zip ds).foldl
              (fun st2 pr =>
                if pr.1 ≠ (i - 1).toNat ∧ st2.fs.pathExists pr.2 then
                  handlerRemoveDir k pr.2 st2
                else st2)
              rs.2
          else rs.2
  else
    match ds with
    | [] => st
    | d :: _ =>
      let hasNumber := hasNumericPref (lastName d)
      if (cfg.numbering.enabled && !hasNumber) || (!cfg.numbering.enabled && hasNumber) then
        handlerRemoveDir k d st
      else st

/-- `DocumentationManager._cleanup_mismatched_content` (manager.py lines
73-128): collect the immediate subdirectories of the target (skipping
`.git`), group them by stripped base name, and resolve each group. -/
def cleanupMismatched (cfg : StructureConfig) (k : HandlerKind) (docsDir : FsPath)
    (s : SimState) : SimState :=
  if !(s.fs.pathExists docsDir) then s
  else
    let allDirs := (s.fs.iterdir docsDir).filter
      (fun d => s.fs.isDir d && lastName d != ".git")
    let groups := allDirs.foldl (fun gs d => addToGroup gs (get_base_name (lastName d)) d) []
    groups.foldl (fun st g => cleanupGroup cfg k st g.2) s

/-- The per-directory loop of `_create_directories` (manager.py lines
148-161), with 1-based directory indices and per-directory file indices. -/
def createDirsLoop (cfg : StructureConfig) (k : HandlerKind) (docsDir : FsPath)
    (entries : List (String × List String)) (index : Nat) (s : SimState) :
    Option MErr × SimState :=
  match entries with
  | [] => (none, s)
  | (dirName, files) :: rest =>
    let dirPath := getDirectoryPath cfg.numbering docsDir dirName index
    match mkdirExistOk s dirPath with
    | (some e, t) => (some e, t)
    | (none, t) =>
      match createFilesLoop cfg k dirPath files 1 t with
      | (some e, u) => (some e, u)
      | (none, u) => createDirsLoop cfg k docsDir rest (index + 1) u

/-- `DocumentationManager._create_directories` (manager.py lines 148-161). -/
def createDirectories (cfg : StructureConfig) (k : HandlerKind) (docsDir : FsPath)
    (s : SimState) : Option MErr × SimState :=
  createDirsLoop cfg k docsDir cfg.docStructure.directories 1 s

/-- The target directory `project_root / config.docs_dir` (manager.py
line 50; `pathlib` drops a bare `"."` component). -/
def docsDirOf (cfg : StructureConfig) (projectRoot : FsPath) : FsPath :=
  projectRoot ++ (if cfg.docsDir = "." then [] else [cfg.docsDir])

/-- The body of the `try` block of `create_structure` (manager.py lines
52-68): migration, target creation, mismatch cleanup, top-level files,
directories, stopping at the first exception. -/
def createStructureSteps (cfg : StructureConfig) (k : HandlerKind) (projectRoot : FsPath)
    (s : SimState) : Option MErr × SimState :=
  let docsDir := docsDirOf cfg projectRoot
  match handleDirectoryChange k projectRoot docsDir s with
  | (some e, t) => (some e, t)
  | (none, t) =>
    match mkdirExistOk t docsDir with
    | (some e, u) => (some e, u)
    | (none, u) =>
      let v := cleanupMismatched cfg k docsDir u
      match createTopLevelFiles cfg k docsDir v with
      | (some e, w) => (some e, w)
      | (none, w) => createDirectories cfg k docsDir w

/-- `DocumentationManager.create_structure` (manager.py lines 36-71): run
the steps and wrap any exception in a `DocumentationError` carrying the
underlying cause. -/
def createStructure (cfg : StructureConfig) (k : HandlerKind) (projectRoot : FsPath)
    (s : SimState) : Option MErr × SimState :=
  match createStructureSteps cfg k projectRoot s with
  | (some e, t) =>
    (some (.documentationError ("Error creating directory structure: " ++ e.message)), t)
  | (none, t) => (none, t)

/-! ## Concrete scenarios and spec-side definitions used by the theorems -/

/-- A state with an existing file `f.md` and a pending decline response. -/
def c1State : SimState :=
  { fs := { files := [(["f.md"], "old")], dirs := [] }, console := [some "n"] }

/-- A dry-run migration scenario: one file under `docs/policies` and a
pending decline for the source-removal prompt. -/
def c2State : SimState :=
  { fs := { files := [(["docs", "policies", "policy1.md"], "Policy 1 content")], dirs := [] },
    console := [some "n"] }

/-- The configuration of the end-to-end example: directories
`guides -> [getting-started.md]`, `reference -> [api.md]`, top-level
`[index.md]`, numbering enabled with step 10, directory start 20,
padding 3, initial 10; markdown headings on. -/
def cfg5h : StructureConfig :=
  { docsDir := "docs",
    numbering :=
      { enabled := true, initialPref := 10, dirStartPref := 20, stepPref := 10, padWidth := 3 },
    docStructure :=
      { directories := [("guides", ["getting-started.md"]), ("reference", ["api.md"])],
        topLevelFiles := ["index.md"] },
    useMarkdownHeadings := true }

/-- The same configuration with markdown headings off. -/
def cfg5e : StructureConfig :=
  { cfg5h with useMarkdownHeadings := false }

/-- An empty project: no files, no directories, no pending responses. -/
def s00 : SimState :=
  { fs := { files := [], dirs := [] }, console := [] }

/-- A project whose `docs` target already contains a file while a
candidate ISMS directory exists: the migration step raises. -/
def c9State : SimState :=
  { fs := { files := [(["olddocs", "policies", "p.md"], "x"), (["docs", "f.md"], "y")],
            dirs := [] },
    console := [] }

/-- Modelled from the spec words (section 4.5): zero-padded
(`paddingWidth` digits) decimal of the computed number. -/
def specPadded (w n : Nat) : String :=
  ⟨List.leftpad w '0' (Nat.repr n).data⟩

/-- Modelled from the spec words (section 4.5): `prefix = index *
prefixStep`; final name = padded prefix + underscore + sanitized name. -/
def specFileName (nc : NumberingConfig) (sanitized : String) (index : Nat) : String :=
  specPadded nc.padWidth (index * nc.stepPref) ++ "_" ++ sanitized

/-- Modelled from the spec words (section 4.6): directory path with
`index * dirStartPrefix`, padded the same way, or no number at all when
numbering is disabled. -/
def specDirPath (nc : NumberingConfig) (target : FsPath) (dirName : String)
    (index : Nat) : FsPath :=
  if nc.enabled then
    target ++ [specPadded nc.padWidth (index * nc.dirStartPref) ++ "_" ++ dirName]
  else target ++ [dirName]

/-- A target that exists and contains an entry (an empty subdirectory)
next to one migration candidate; the operator queue is empty. -/
def c3State : SimState :=
  { fs := { files := [(["olddocs", "policies", "a.md"], "x")],
            dirs := [["newdocs"], ["newdocs", "sub"]] },
    console := [] }

/-- A target containing a regular file next to one candidate: the check
fires. -/
def c3ErrState : SimState :=
  { fs := { files := [(["olddocs", "policies", "a.md"], "x"), (["newdocs", "f.md"], "y")],
            dirs := [] },
    console := [] }

/-- A project with a `docs` directory holding no ISMS-patterned content. -/
def c4Fs : FS :=
  { files := [(["docs", "readme.txt"], "hi")], dirs := [] }

/-- A project whose documentation lives in an arbitrarily named directory
with ISMS-patterned content. -/
def c4bFs : FS :=
  { files := [(["weird", "policies", "p.md"], "x")], dirs := [] }

/-- The relation "not two dashes in a row". -/
def noDoubleDash (a b : Char) : Prop :=
  ¬ (isDash a = true ∧ isDash b = true)

/-- A target that already carries a `README.md` with content. -/
def c10State : SimState :=
  { fs := { files := [(["docs", "README.md"], "keep")], dirs := [] }, console := [] }

/-! ## Association-list lemmas about the file table -/

theorem find?_cons_true {α : Type} (f : α → Bool) (a : α) (t : List α) (h : f a = true) :
    (a :: t).find? f = some a := by
  simp [List.find?, h]

theorem find?_cons_false {α : Type} (f : α → Bool) (a : α) (t : List α) (h : f a = false) :
    (a :: t).find? f = t.find? f := by
  simp [List.find?, h]

theorem find?_map_update_self (l : List (FsPath × String)) (p : FsPath) (c : String)
    (h : l.any (fun e => e.1 == p) = true) :
    (l.map (fun e => if e.1 == p then (p, c) else e)).find? (fun e => e.1 == p) = some (p, c) := by
  induction l with
  | nil => simp at h
  | cons a t ih =>
    rw [List.map_cons]
    by_cases ha : (a.1 == p) = true
    · have hm : (if (a.1 == p) = true then (p, c) else a) = (p, c) := if_pos ha
      rw [hm, find?_cons_true (fun e => e.1 == p) (p, c) _ (by simp)]
    · have hm : (if (a.1 == p) = true then (p, c) else a) = a := if_neg ha
      rw [hm, find?_cons_false (fun e => e.1 == p) a _ (by simpa using ha)]
      apply ih
      simp only [List.any_cons, Bool.or_eq_true] at h
      exact h.resolve_left ha

theorem find?_map_update_other (l : List (FsPath × String)) (p : FsPath) (c : String)
    (q : FsPath) (hq : q ≠ p) :
    (l.map (fun e => if e.1 == p then (p, c) else e)).find? (fun e => e.1 == q) =
      l.find? (fun e => e.1 == q) := by
  induction l with
  | nil => simp
  | cons a t ih =>
    rw [List.map_cons]
    by_cases ha : (a.1 == p) = true
    · have hap : a.1 = p := by simpa using ha
      have hm : (if (a.1 == p) = true then (p, c) else a) = (p, c) := if_pos ha
      have h1 : (((p, c).1 == q)) = false := by
        simp only [beq_eq_false_iff_ne]
        exact fun hh => hq hh.symm
      have h2 : ((a.1 == q)) = false := by
        simp only [beq_eq_false_iff_ne, hap]
        exact fun hh => hq hh.symm
      rw [hm, find?_cons_false (fun e => e.1 == q) (p, c) _ h1,
        find?_cons_false (fun e => e.1 == q) a _ h2, ih]
    · have hm : (if (a.1 == p) = true then (p, c) else a) = a := if_neg ha
      by_cases haq : (a.1 == q) = true
      · rw [hm, find?_cons_true (fun e => e.1 == q) a _ haq,
          find?_cons_true (fun e => e.1 == q) a _ haq]
      · rw [hm, find?_cons_false (fun e => e.1 == q) a _ (by simpa using haq),
          find?_cons_false (fun e => e.1 == q) a _ (by simpa using haq), ih]

theorem find?_append_single_self (l : List (FsPath × String)) (p : FsPath) (c : String)
    (h : l.any (fun e => e.1 == p) = false) :
    (l ++ [(p, c)]).find? (fun e => e.1 == p) = some (p, c) := by
  induction l with
  | nil =>
    rw [List.nil_append, find?_cons_true (fun e => e.1 == p) (p, c) _ (by simp)]
  | cons a t ih =>
    simp only [List.any_cons, Bool.or_eq_false_iff] at h
    rw [List.cons_append, find?_cons_false (fun e => e.1 == p) a _ h.1, ih h.2]

theorem find?_append_single_other (l : List (FsPath × String)) (p : FsPath) (c : String)
    (q : FsPath) (hq : q ≠ p) :
    (l ++ [(p, c)]).find? (fun e => e.1 == q) = l.find? (fun e => e.1 == q) := by
  induction l with
  | nil =>
    rw [List.nil_append, find?_cons_false (fun e => e.1 == q) (p, c) _ (by
      simp only [beq_eq_false_iff_ne]
      exact fun hh => hq hh.symm)]
  | cons a t ih =>
    by_cases haq : (a.1 == q) = true
    · rw [List.cons_append, find?_cons_true (fun e => e.1 == q) a _ haq,
        find?_cons_true (fun e => e.1 == q) a _ haq]
    · rw [List.cons_append, find?_cons_false (fun e => e.1 == q) a _ (by simpa using haq),
        find?_cons_false (fun e => e.1 == q) a _ (by simpa using haq), ih]

theorem lookupFile_writeFile_self (fs : FS) (p : FsPath) (c : String) :
    (fs.writeFile p c).lookupFile p = some c := by
  unfold FS.writeFile
  by_cases h : fs.isFile p = true
  · rw [if_pos h]
    unfold FS.lookupFile
    rw [find?_map_update_self fs.files p c h]
    rfl
  · rw [if_neg h]
    unfold FS.lookupFile
    have h' : fs.files.any (fun e => e.1 == p) = false := by
      have : fs.isFile p = false := by simpa using h
      exact this
    rw [find?_append_single_self fs.files p c h']
    rfl

theorem lookupFile_writeFile_other (fs : FS) (p : FsPath) (c : String) (q : FsPath)
    (hq : q ≠ p) :
    (fs.writeFile p c).lookupFile q = fs.lookupFile q := by
  unfold FS.writeFile
  by_cases h : fs.isFile p = true
  · rw [if_pos h]
    unfold FS.lookupFile
    rw [find?_map_update_other fs.files p c q hq]
  · rw [if_neg h]
    unfold FS.lookupFile
    rw [find?_append_single_other fs.files p c q hq]

theorem lookupFile_mkdirParents (fs : FS) (p q : FsPath) :
    (fs.mkdirParents p).lookupFile q = fs.lookupFile q := rfl

/-! ## C1: the interactive handler's `create` -/

/-- C1, counterexample.  The claim says `InteractiveFileHandler.create`
prompts exactly when the target exists (and that a declined overwrite is a
no-op).  At a state where `f.md` exists and a decline is queued, `create`
consumes no prompt at all — refuting the "prompts iff exists" equivalence —
and overwrites the file anyway. -/
theorem c1_overwrite_prompt_refuted :
    ¬ (((handlerCreate .interactive ["f.md"] "new" c1State).console ≠ c1State.console) ↔
        c1State.fs.pathExists ["f.md"] = true) ∧
    (handlerCreate .interactive ["f.md"] "new" c1State).fs.lookupFile ["f.md"] = some "new" := by
  constructor
  · intro h
    exact absurd rfl (h.mpr (by decide))
  · decide

/-- C1, amended.  `InteractiveFileHandler.create` (handler.py lines 65-72)
never prompts: it leaves the operator queue untouched, ensures the parent
directories and writes `content` at `path` unconditionally (silently
overwriting), leaving every other file unchanged.  In particular creating
a file at a fresh path never prompts; the claimed exists-triggered
overwrite confirmation (and the decline-is-a-no-op behaviour) does not
exist. -/
theorem c1_create_never_prompts (s : SimState) (p : FsPath) (content : String) (q : FsPath) :
    (handlerCreate .interactive p content s).console = s.console ∧
    (handlerCreate .interactive p content s).fs.lookupFile p = some content ∧
    (q ≠ p → (handlerCreate .interactive p content s).fs.lookupFile q = s.fs.lookupFile q) := by
  refine ⟨rfl, ?_, fun hq => ?_⟩
  · show ((s.fs.mkdirParents p.dropLast).writeFile p content).lookupFile p = some content
    rw [lookupFile_writeFile_self]
  · show ((s.fs.mkdirParents p.dropLast).writeFile p content).lookupFile q = s.fs.lookupFile q
    rw [lookupFile_writeFile_other _ _ _ _ hq, lookupFile_mkdirParents]

/-- C1, witness for the amended theorem at a concrete state. -/
theorem c1_create_never_prompts_witness :
    (handlerCreate .interactive ["f.md"] "new" c1State).console = c1State.console ∧
    (handlerCreate .interactive ["f.md"] "new" c1State).fs.lookupFile ["f.md"] = some "new" ∧
    (handlerCreate .interactive ["f.md"] "new" c1State).fs.lookupFile ["g.md"] =
      c1State.fs.lookupFile ["g.md"] := by
  obtain ⟨h1, h2, h3⟩ := c1_create_never_prompts c1State ["f.md"] "new" ["g.md"]
  exact ⟨h1, h2, h3 (by decide)⟩

/-! ## C2: migration bypasses the injected handler -/

/-- C2, code bug.  The claim (like the spec and the repository's own
tests, which assert `file_handler.create` is called during migration)
says every migrated file is written through the injected handler's
`create`, so an injected `DryRunFileHandler` performs no mutation.  The
code instead copies with a direct `dest_path.write_bytes` (migrator.py
line 202): with the dry-run handler injected, the destination file

really appears. -/
theorem c2_dryrun_migration_mutates :
    c2State.fs.lookupFile ["new_docs", "policies", "policy1.md"] = none ∧
    (migrateDirectory .dryRun ["docs"] ["new_docs"] c2State).fs.lookupFile
      ["new_docs", "policies", "policy1.md"] = some "Policy 1 content" := by
  decide

/-! ## C5: the end-to-end materialisation example -/

/-- C5, counterexample.  The claim says materialising produces *exactly*
`010_index.md`, `020_guides/010_getting-started.md` and
`040_reference/010_api.md`.  The run also force-creates `docs/README.md`,
which is none of the three. -/
theorem c5_readme_also_created :
    ["docs", "README.md"] ∈ ((createStructure cfg5h .silent [] s00).2.fs.files.map Prod.fst) ∧
    ¬ (["docs", "README.md"] ∈
        ([["docs", "010_index.md"], ["docs", "020_guides", "010_getting-started.md"],
          ["docs", "040_reference", "010_api.md"]] : List FsPath)) := by
  decide

/-- C5, amended.  Under the example configuration on an empty project the
run succeeds and produces exactly four files: the force-created empty
`docs/README.md` plus the three claimed files `docs/010_index.md`,
`docs/020_guides/010_getting-started.md` and
`docs/040_reference/010_api.md`; with markdown headings on, each of the
three configured files holds exactly the `toTitle`-derived heading line,
and with headings off all contents are empty. -/
theorem c5_materialized_files :
    createStructure cfg5h .silent [] s00 =
      (none,
        { fs :=
            { files := [(["docs", "README.md"], ""),
                        (["docs", "010_index.md"], "# Index\n"),
                        (["docs", "020_guides", "010_getting-started.md"], "# Getting Started\n"),
                        (["docs", "040_reference", "010_api.md"], "# Api\n")],
              dirs := [["docs"], ["docs", "020_guides"], ["docs", "040_reference"]] },
          console := [] }) ∧
    createStructure cfg5e .silent [] s00 =
      (none,
        { fs :=
            { files := [(["docs", "README.md"], ""),
                        (["docs", "010_index.md"], ""),
                        (["docs", "020_guides", "010_getting-started.md"], ""),
                        (["docs", "040_reference", "010_api.md"], "")],
              dirs := [["docs"], ["docs", "020_guides"], ["docs", "040_reference"]] },
          console := [] }) := by
  decide

/-! ## C9: the manager's error coalescing -/

/-- C9.  `create_structure` (manager.py lines 52-71) runs the five
orchestration steps inside one `try` and re-raises any exception as a
`DocumentationError` whose message carries the underlying cause; a
successful run is passed through unchanged, so the caller sees exactly
one error type. -/
theorem c9_error_wrapping (cfg : StructureConfig) (k : HandlerKind) (root : FsPath)
    (s : SimState) :
    (∀ t, createStructureSteps cfg k root s = (none, t) →
      createStructure cfg k root s = (none, t)) ∧
    (∀ e t, createStructureSteps cfg k root s = (some e, t) →
      createStructure cfg k root s =
        (some (.documentationError ("Error creating directory structure: " ++ e.message)), t)) := by
  constructor
  · intro t h
    simp [createStructure, h]
  · intro e t h
    simp [createStructure, h]

/-- C9, witness: the raised `FileSystemError` surfaces as the single
`DocumentationError` kind with the cause in its message. -/
theorem c9_error_wrapping_witness :
    createStructure cfg5h .interactive [] c9State =
      (some (.documentationError
        ("Error creating directory structure: New directory docs already exists and contains files")),
       c9State) :=
  (c9_error_wrapping cfg5h .interactive [] c9State).2
    (.fileSystemError "New directory docs already exists and contains files") c9State (by decide)

example : sanitize "Test   Multiple   Spaces.md" = some "test-multiple-spaces.md" := by decide
example : sanitize "-test-file-.md" = some "test-file.md" := by decide
example : sanitize "My File Name.md" = some "my-file-name.md" := by decide
example : sanitize "multiple---dashes.txt" = some "multiple-dashes.txt" := by decide
example : get_base_name "010_file.md" = "file.md" := by decide
example : get_base_name "test123-file.md" = "test123-file.md" := by decide
example : to_title "getting-started-guide.md" = some "Getting Started Guide" := by decide
example : to_title "information-security-policy.md" = some "Information Security Policy" := by decide

/-! ## C7: `get_base_name` (stripNumericPrefix) -/

theorem takeWhile_append_all {p : Char → Bool} (ds rest : List Char) (b : Char)
    (hall : ∀ c ∈ ds, p c = true) (hb : p b = false) :
    (ds ++ b :: rest).takeWhile p = ds := by
  induction ds with
  | nil => simp [List.takeWhile_cons, hb]
  | cons a t ih =>
    have ha : p a = true := hall a (List.mem_cons_self a t)
    rw [List.cons_append, List.takeWhile_cons, ha]
    simp only [if_true]
    rw [ih (fun c hc => hall c (List.mem_cons_of_mem a hc))]

theorem dropWhile_append_all {p : Char → Bool} (ds rest : List Char) (b : Char)
    (hall : ∀ c ∈ ds, p c = true) (hb : p b = false) :
    (ds ++ b :: rest).dropWhile p = b :: rest := by
  induction ds with
  | nil => simp [List.dropWhile_cons, hb]
  | cons a t ih =>
    have ha : p a = true := hall a (List.mem_cons_self a t)
    rw [List.cons_append, List.dropWhile_cons, ha]
    simp only [if_true]
    exact ih (fun c hc => hall c (List.mem_cons_of_mem a hc))

/-- C7.  `get_base_name` removes a leading nonempty run of decimal digits
followed by a single underscore and otherwise returns its input
unchanged; in particular `010_file.md ↦ file.md`, `file.md ↦ file.md`,
and `test123-file.md` (digits not underscore-delimited at the start) is
unchanged. -/
theorem c7_get_base_name_spec :
    (∀ ds rest : List Char, ds ≠ [] → (∀ c ∈ ds, isDigitChar c = true) →
      get_base_name ⟨ds ++ '_' :: rest⟩ = ⟨rest⟩) ∧
    (∀ s : String,
      (¬ ∃ ds rest, ds ≠ [] ∧ (∀ c ∈ ds, isDigitChar c = true) ∧ s.data = ds ++ '_' :: rest) →
      get_base_name s = s) ∧
    get_base_name "010_file.md" = "file.md" ∧
    get_base_name "file.md" = "file.md" ∧
    get_base_name "test123-file.md" = "test123-file.md" := by
  refine ⟨?_, ?_, by decide, by decide, by decide⟩
  · intro ds rest hne hall
    have hu : isDigitChar '_' = false := by decide
    unfold get_base_name
    have ht : (String.mk (ds ++ '_' :: rest)).data.takeWhile isDigitChar = ds :=
      takeWhile_append_all ds rest _ hall hu
    have hd : (String.mk (ds ++ '_' :: rest)).data.dropWhile isDigitChar = '_' :: rest :=
      dropWhile_append_all ds rest _ hall hu
    rw [ht, hd]
    rw [if_neg (by simpa [List.isEmpty_iff] using hne)]
    simp
  · intro s hno
    unfold get_base_name
    by_cases he : (s.data.takeWhile isDigitChar).isEmpty = true
    · rw [if_pos he]
    · rw [if_neg he]
      cases hdw : s.data.dropWhile isDigitChar with
      | nil => rfl
      | cons c rest =>
        show (if c = '_' then ({ data := rest } : String) else s) = s
        by_cases hc : c = '_'
        · exfalso
          apply hno
          refine ⟨s.data.takeWhile isDigitChar, rest, ?_, ?_, ?_⟩
          · simpa [List.isEmpty_iff] using he
          · intro x hx
            exact List.mem_takeWhile_imp hx
          · subst hc
            rw [← hdw, List.takeWhile_append_dropWhile]
        · rw [if_neg hc]

/-- C7, witness: the three cases of the first clause at concrete inputs. -/
theorem c7_get_base_name_spec_witness :
    get_base_name ⟨['0', '1', '0'] ++ '_' :: "x.md".data⟩ = "x.md" := by
  have h := c7_get_base_name_spec.1 ['0', '1', '0'] "x.md".data (by decide) (by decide)
  simpa using h

/-! ## C8: numbered file and directory naming against the spec formulas -/

/-- C8.  With numbering enabled the final file name of the 1-based index
`i` is the zero-padded decimal of `i * prefix_step`, an underscore and
the sanitized name, and the directory path is formed the same way from
`i * dir_start_prefix`; with numbering disabled the file keeps the
sanitized name unchanged and the directory path is `target / dirName`. -/
theorem c8_numbered_naming_refines_spec (nc : NumberingConfig) (sanitized dirName : String)
    (index : Nat) (target : FsPath) :
    (nc.enabled = true → finalFileName nc sanitized index = specFileName nc sanitized index) ∧
    (nc.enabled = false → finalFileName nc sanitized index = sanitized) ∧
    getDirectoryPath nc target dirName index = specDirPath nc target dirName index := by
  refine ⟨fun h => ?_, fun h => ?_, ?_⟩
  · unfold finalFileName
    rw [if_pos h]
    rfl
  · unfold finalFileName
    rw [if_neg (by simp [h])]
  · unfold getDirectoryPath specDirPath
    by_cases h : nc.enabled = true
    · rw [if_pos h, if_pos h]
      rfl
    · rw [if_neg h, if_neg h]

/-- C8, witness at the example numbering (step 10, dirStart 20, padding
3): both the enabled file-name formula and the directory formula. -/
theorem c8_numbered_naming_witness :
    finalFileName cfg5h.numbering "test.md" 1 = specFileName cfg5h.numbering "test.md" 1 ∧
    getDirectoryPath cfg5h.numbering ["docs"] "guides" 2 =
      specDirPath cfg5h.numbering ["docs"] "guides" 2 := by
  have h := c8_numbered_naming_refines_spec cfg5h.numbering "test.md" "guides" 1 ["docs"]
  have h2 := c8_numbered_naming_refines_spec cfg5h.numbering "test.md" "guides" 2 ["docs"]
  exact ⟨h.1 (by decide), h2.2.2⟩

/-! ## C3: the "target not empty" failure of `handle_directory_change` -/

/-- C3, counterexample.  The claim says reconcile fails whenever the
target exists and contains *any entry*.  Here `newdocs` exists and
contains the entry `sub`, a candidate was found, and yet no error is
raised (the code only counts regular files below the target). -/
theorem c3_empty_subdir_no_error :
    (handleDirectoryChange .interactive [] ["newdocs"] c3State).1 = none ∧
    c3State.fs.pathExists ["newdocs"] = true ∧
    (c3State.fs.iterdir ["newdocs"]).length ≠ 0 ∧
    !(findIsmsDirectories c3State.fs [] ["newdocs"]).isEmpty = true := by
  decide

/-- C3, amended.  `handle_directory_change` (migrator.py lines 79-141)
raises its "already exists and contains files" `FileSystemError` exactly
when some migration candidate was found *and* the target exists *and* a
regular file lives somewhere below the target (entries that are only
empty directories do not count, and with no candidates the check is never
reached); when it raises, it does so before any mutation, so the state is
returned unchanged. -/
theorem c3_target_not_empty_iff (k : HandlerKind) (root new : FsPath) (s : SimState) :
    ((handleDirectoryChange k root new s).1.isSome =
      (!(findIsmsDirectories s.fs root new).isEmpty &&
        (s.fs.pathExists new && s.fs.hasContentFile new))) ∧
    ((handleDirectoryChange k root new s).1.isSome = true →
      (handleDirectoryChange k root new s).2 = s) := by
  unfold handleDirectoryChange
  by_cases h1 : (findIsmsDirectories s.fs root new).isEmpty = true
  · simp [h1]
  · by_cases h2 : (s.fs.pathExists new && s.fs.hasContentFile new) = true
    · have h2' : (s.fs.pathExists new && s.fs.hasContentFile new) = true := h2
      rw [Bool.and_eq_true] at h2'
      simp [h1, h2'.1, h2'.2]
    · have h2' : (s.fs.pathExists new && s.fs.hasContentFile new) = false := by
        simpa using h2
      simp [h1, h2']

/-- C3, witness: when the error fires, the returned state is the input
state (no mutation before or alongside the raise). -/
theorem c3_target_not_empty_iff_witness :
    (handleDirectoryChange .interactive [] ["newdocs"] c3ErrState).2 = c3ErrState :=
  (c3_target_not_empty_iff .interactive [] ["newdocs"] c3ErrState).2 (by decide)

/-! ## C4: candidate discovery -/

theorem mem_fromBaseCandidates (fs : FS) (exclude base p : FsPath) :
    p ∈ fromBaseCandidates fs exclude base ↔
      (fs.pathExists base = true ∧ p ∈ fs.iterdir base ∧ fs.isDir p = true ∧
        p ≠ exclude ∧ fs.hasIsmsContent p = true) := by
  unfold fromBaseCandidates
  by_cases h : fs.pathExists base = true
  · simp [h, List.mem_filter, Bool.and_eq_true, bne_iff_ne, and_assoc]
  · simp [h]

/-- C4, counterexample.  The claim says a path is a candidate iff it
exists, is a directory and differs from the excluded path, drawn from a
small fixed set of well-known names.  The directory `docs` satisfies all
of that and is still not a candidate (it holds no ISMS-patterned
content), while a directory named `weird` — outside any well-known-name
set — is one. -/
theorem c4_docs_without_isms_not_candidate :
    findIsmsDirectories c4Fs [] ["newdir"] = [] ∧
    c4Fs.pathExists ["docs"] = true ∧
    c4Fs.isDir ["docs"] = true ∧
    (["docs"] : FsPath) ≠ ["newdir"] ∧
    findIsmsDirectories c4bFs [] ["newdir"] = [["weird"]] := by
  decide

/-- C4, amended.  `find_isms_directories` scans the immediate
subdirectories of the project root *and of `project_root / "docs"`*
(not a fixed name list): a path is returned iff its scan base exists, it
is one of that base's immediate children, is a directory, is not the
excluded path, and contains a markdown file under a `policies`,
`procedures` or `records` directory (optionally with a three-digit
numeric prefix) at any depth; the result is deduplicated and sorted by
path string. -/
theorem c4_candidates_characterization (fs : FS) (root exclude p : FsPath) :
    (p ∈ findIsmsDirectories fs root exclude ↔
      ∃ base, (base = root ∨ base = root ++ ["docs"]) ∧ fs.pathExists base = true ∧
        p ∈ fs.iterdir base ∧ fs.isDir p = true ∧ p ≠ exclude ∧
        fs.hasIsmsContent p = true) ∧
    List.Sorted pathLe (findIsmsDirectories fs root exclude) := by
  constructor
  · unfold findIsmsDirectories
    rw [(List.perm_insertionSort pathLe _).mem_iff, List.mem_dedup, List.mem_append,
      mem_fromBaseCandidates, mem_fromBaseCandidates]
    constructor
    · intro h
      rcases h with h | h
      · exact ⟨root, Or.inl rfl, h⟩
      · exact ⟨root ++ ["docs"], Or.inr rfl, h⟩
    · intro h
      rcases h with ⟨base, hbase | hbase, hrest⟩
      · exact Or.inl (hbase ▸ hrest)
      · exact Or.inr (hbase ▸ hrest)
  · exact List.sorted_insertionSort pathLe _

/-! ## C6: idempotence of `sanitize` -/

theorem eq_dash_char {c : Char} (h : isDash c = true) : c = '-' := by
  have hn : c.toNat = 45 := by simpa [isDash] using h
  have ho := Char.ofNat_toNat c
  rw [hn] at ho
  rw [← ho]

theorem noDoubleDash_symm {a b : Char} (h : noDoubleDash a b) : noDoubleDash b a :=
  fun hh => h ⟨hh.2, hh.1⟩

theorem mem_trimBy {q : Char → Bool} {l : List Char} {c : Char} (h : c ∈ trimBy q l) :
    c ∈ l := by
  unfold trimBy at h
  have h1 := (List.dropWhile_sublist q).subset h
  rw [List.mem_reverse] at h1
  have h2 := (List.dropWhile_sublist q).subset h1
  rwa [List.mem_reverse] at h2

theorem mem_collapseDashes {c : Char} : ∀ {l : List Char}, c ∈ collapseDashes l → c ∈ l := by
  intro l
  induction l with
  | nil => simp [collapseDashes]
  | cons a t ih =>
    cases t with
    | nil => simp [collapseDashes]
    | cons b u =>
      intro h
      simp only [collapseDashes] at h
      by_cases hd : (isDash a && isDash b) = true
      · rw [if_pos hd] at h
        exact List.mem_cons_of_mem a (ih h)
      · rw [if_neg hd] at h
        rcases List.mem_cons.mp h with h | h
        · exact h ▸ List.mem_cons_self a _
        · exact List.mem_cons_of_mem a (ih h)

theorem head?_collapseDashes : ∀ (l : List Char), (collapseDashes l).head? = l.head? := by
  intro l
  induction l with
  | nil => rfl
  | cons a t ih =>
    cases t with
    | nil => rfl
    | cons b u =>
      simp only [collapseDashes]
      by_cases hd : (isDash a && isDash b) = true
      · rw [if_pos hd]
        rw [Bool.and_eq_true] at hd
        have ha := eq_dash_char hd.1
        have hb := eq_dash_char hd.2
        rw [ih]
        simp [ha, hb]
      · rw [if_neg hd]
        rfl

theorem chain'_collapseDashes : ∀ (l : List Char), List.Chain' noDoubleDash (collapseDashes l) := by
  intro l
  induction l with
  | nil => simp [collapseDashes]
  | cons a t ih =>
    cases t with
    | nil => simp [collapseDashes]
    | cons b u =>
      simp only [collapseDashes]
      by_cases hd : (isDash a && isDash b) = true
      · rw [if_pos hd]
        exact ih
      · rw [if_neg hd]
        refine List.chain'_cons'.mpr ⟨?_, ih⟩
        intro y hy
        rw [head?_collapseDashes] at hy
        have hyb : b = y := by simpa using hy
        intro hboth
        apply hd
        rw [Bool.and_eq_true]
        exact ⟨hboth.1, hyb ▸ hboth.2⟩

theorem collapseDashes_eq_self : ∀ {l : List Char}, List.Chain' noDoubleDash l →
    collapseDashes l = l := by
  intro l
  induction l with
  | nil => intro; rfl
  | cons a t ih =>
    cases t with
    | nil => intro; rfl
    | cons b u =>
      intro h
      obtain ⟨hab, hrest⟩ := List.chain'_cons.mp h
      simp only [collapseDashes]
      have hd : (isDash a && isDash b) = false := by
        cases ha : isDash a
        · simp
        · cases hb : isDash b
          · simp
          · exact absurd ⟨ha, hb⟩ hab
      rw [if_neg (by simp [hd]), ih hrest]

theorem chain'_trimBy (q : Char → Bool) (l : List Char)
    (h : List.Chain' noDoubleDash l) : List.Chain' noDoubleDash (trimBy q l) := by
  have himp : ∀ a b : Char, noDoubleDash a b → flip noDoubleDash a b :=
    fun a b hab => noDoubleDash_symm hab
  have himp2 : ∀ a b : Char, flip noDoubleDash a b → noDoubleDash a b :=
    fun a b hab => noDoubleDash_symm hab
  have h2 : List.Chain' noDoubleDash l.reverse :=
    List.chain'_reverse.mpr (h.imp himp)
  have h3 : List.Chain' noDoubleDash (l.reverse.dropWhile q) :=
    h2.suffix (List.dropWhile_suffix q)
  have h4 : List.Chain' noDoubleDash ((l.reverse.dropWhile q).reverse) :=
    List.chain'_reverse.mpr (h3.imp himp)
  exact h4.suffix (List.dropWhile_suffix q)

theorem head?_dropWhile_false (q : Char → Bool) :
    ∀ (l : List Char) (c : Char), (l.dropWhile q).head? = some c → q c = false := by
  intro l
  induction l with
  | nil => intro c h; simp at h
  | cons a u ih =>
    intro c h
    rw [List.dropWhile_cons] at h
    by_cases ha : q a = true
    · rw [if_pos ha] at h
      exact ih c h
    · rw [if_neg ha] at h
      have hac : a = c := by simpa using h
      subst hac
      simpa using ha

theorem dropWhile_eq_self_of_head (q : Char → Bool) (l : List Char)
    (h : ∀ c, l.head? = some c → q c = false) : l.dropWhile q = l := by
  cases l with
  | nil => rfl
  | cons a u =>
    rw [List.dropWhile_cons, if_neg]
    simp [h a rfl]

theorem trimBy_head_false (q : Char → Bool) (l : List Char) (c : Char)
    (h : (trimBy q l).head? = some c) : q c = false :=
  head?_dropWhile_false q _ c h

theorem trimBy_last_false (q : Char → Bool) (l : List Char) (c : Char)
    (h : (trimBy q l).reverse.head? = some c) : q c = false := by
  obtain ⟨t, ht⟩ := List.dropWhile_suffix (l := (l.reverse.dropWhile q).reverse) q
  have hrev : l.reverse.dropWhile q = (trimBy q l).reverse ++ t.reverse := by
    have := congrArg List.reverse ht
    rw [List.reverse_append, List.reverse_reverse] at this
    exact this.symm
  cases hc : (trimBy q l).reverse with
  | nil => rw [hc] at h; simp at h
  | cons d r =>
    rw [hc] at h
    have hdc : d = c := by simpa using h
    subst hdc
    rw [hc] at hrev
    have : (l.reverse.dropWhile q).head? = some d := by
      rw [hrev]
      rfl
    exact head?_dropWhile_false q _ d this

theorem trimBy_eq_self (q : Char → Bool) (l : List Char)
    (hh : ∀ c, l.head? = some c → q c = false)
    (hl : ∀ c, l.reverse.head? = some c → q c = false) : trimBy q l = l := by
  unfold trimBy
  rw [dropWhile_eq_self_of_head q l.reverse hl, List.reverse_reverse]
  exact dropWhile_eq_self_of_head q l hh

theorem mem_sanitizeBase_allowed (l : List Char) :
    ∀ c ∈ sanitizeBase l, isAllowedChar c = true := by
  intro c hc
  unfold sanitizeBase at hc
  have h1 := mem_trimBy hc
  have h2 := mem_collapseDashes h1
  exact List.of_mem_filter h2

theorem map_eq_self_of {f : Char → Char} {l : List Char} (h : ∀ c ∈ l, f c = c) :
    l.map f = l := by
  induction l with
  | nil => rfl
  | cons a t ih =>
    rw [List.map_cons, h a (List.mem_cons_self a t), ih (fun c hc => h c (List.mem_cons_of_mem a hc))]

theorem allowed_ranges {c : Char} (h : isAllowedChar c = true) :
    (97 ≤ c.toNat ∧ c.toNat ≤ 122) ∨ (48 ≤ c.toNat ∧ c.toNat ≤ 57) ∨ c.toNat = 45 := by
  have h2 : ((97 ≤ c.toNat ∧ c.toNat ≤ 122) ∨ (48 ≤ c.toNat ∧ c.toNat ≤ 57)) ∨ c.toNat = 45 := by
    simpa [isAllowedChar, Bool.or_eq_true, Bool.and_eq_true, decide_eq_true_eq] using h
  tauto

theorem pyLowerChar_fixed {c : Char} (h : isAllowedChar c = true) : pyLowerChar c = c := by
  unfold pyLowerChar
  rw [if_neg]
  rcases allowed_ranges h with h1 | h1 | h1 <;> omega

theorem spaceToDash_fixed {c : Char} (h : isAllowedChar c = true) :
    (if c.toNat == 32 then '-' else c) = c := by
  rw [if_neg]
  rcases allowed_ranges h with h1 | h1 | h1 <;> simp <;> omega

theorem sanitizeBase_chain (l : List Char) : List.Chain' noDoubleDash (sanitizeBase l) :=
  chain'_trimBy isDash _ (chain'_collapseDashes _)

theorem sanitizeBase_head_dashfree (l : List Char) (c : Char)
    (h : (sanitizeBase l).head? = some c) : isDash c = false :=
  trimBy_head_false isDash _ c h

theorem sanitizeBase_last_dashfree (l : List Char) (c : Char)
    (h : (sanitizeBase l).reverse.head? = some c) : isDash c = false :=
  trimBy_last_false isDash _ c h

theorem sanitizeBase_fixed (l : List Char) : sanitizeBase (sanitizeBase l) = sanitizeBase l := by
  have hall : ∀ c ∈ sanitizeBase l, isAllowedChar c = true := mem_sanitizeBase_allowed l
  show trimBy isDash (collapseDashes
    ((((sanitizeBase l).map pyLowerChar).map (fun c => if c.toNat == 32 then '-' else c)).filter
      isAllowedChar)) = sanitizeBase l
  rw [map_eq_self_of (fun c hc => pyLowerChar_fixed (hall c hc))]
  rw [map_eq_self_of (fun c hc => spaceToDash_fixed (hall c hc))]
  rw [List.filter_eq_self.mpr hall]
  rw [collapseDashes_eq_self (sanitizeBase_chain l)]
  exact trimBy_eq_self isDash _ (sanitizeBase_head_dashfree l) (sanitizeBase_last_dashfree l)

theorem allowed_ne_dot {c : Char} (h : isAllowedChar c = true) : (c.toNat == 46) = false := by
  simp only [beq_eq_false_iff_ne]
  rcases allowed_ranges h with h1 | h1 | h1 <;> omega

theorem splitExt_no_dot (l : List Char) (h : ∀ c ∈ l, (c.toNat == 46) = false) :
    splitExt l = (l, []) := by
  unfold splitExt
  have hd : l.reverse.dropWhile (fun c => !(c.toNat == 46)) = [] :=
    List.dropWhile_eq_nil_iff.mpr (fun c hc => by
      have := h c (List.mem_reverse.mp hc)
      simp [this])
  rw [hd]

theorem splitExt_append (b e : List Char)
    (_hb : ∀ c ∈ b, (c.toNat == 46) = false) (he : ∀ c ∈ e, (c.toNat == 46) = false) :
    splitExt (b ++ '.' :: e) = (b, '.' :: e) := by
  unfold splitExt
  have hrev : (b ++ '.' :: e).reverse = e.reverse ++ '.' :: b.reverse := by
    rw [List.reverse_append, List.reverse_cons, List.append_assoc, List.singleton_append]
  have hall : ∀ c ∈ e.reverse, (fun c => !(c.toNat == 46)) c = true := fun c hc => by
    have := he c (List.mem_reverse.mp hc)
    simp [this]
  have hdot : (fun c => !(c.toNat == 46)) '.' = false := by decide
  rw [hrev, dropWhile_append_all e.reverse b.reverse '.' hall hdot,
    takeWhile_append_all e.reverse b.reverse '.' hall hdot]
  simp

theorem splitExt_ext_cases (l : List Char) :
    (splitExt l).2 = [] ∨
      ∃ er, (splitExt l).2 = '.' :: er ∧ ∀ c ∈ er, (c.toNat == 46) = false := by
  unfold splitExt
  cases h : l.reverse.dropWhile (fun c => !(c.toNat == 46)) with
  | nil => exact Or.inl rfl
  | cons a r =>
    right
    refine ⟨(l.reverse.takeWhile (fun c => !(c.toNat == 46))).reverse, rfl, ?_⟩
    intro c hc
    have := List.mem_takeWhile_imp (List.mem_reverse.mp hc)
    simpa using this

theorem sanitizeCore_idem (l : List Char) : sanitizeCore (sanitizeCore l) = sanitizeCore l := by
  have hnod : ∀ c ∈ sanitizeBase (splitExt l).1, (c.toNat == 46) = false :=
    fun c hc => allowed_ne_dot (mem_sanitizeBase_allowed _ c hc)
  show sanitizeCore (sanitizeBase (splitExt l).1 ++ (splitExt l).2) =
    sanitizeBase (splitExt l).1 ++ (splitExt l).2
  rcases splitExt_ext_cases l with h | ⟨er, he, hfree⟩
  · rw [h, List.append_nil]
    unfold sanitizeCore
    rw [splitExt_no_dot _ hnod]
    rw [List.append_nil]
    exact sanitizeBase_fixed _
  · rw [he]
    unfold sanitizeCore
    rw [splitExt_append _ _ hnod hfree]
    rw [sanitizeBase_fixed]

/-- C6, counterexample.  `sanitize "!"` succeeds with the empty string,
on which a second application of `sanitize` fails (`ValueError`), so
`sanitize (sanitize x) = sanitize x` does not hold for every non-empty
input on which `sanitize` succeeds. -/
theorem c6_sanitize_not_idempotent_on_bang :
    (sanitize "!").bind sanitize ≠ sanitize "!" := by
  decide

/-- C6, amended.  `sanitize` is idempotent on every input whose sanitized
form is non-empty: whenever `sanitize x = some y` with `y ≠ ""`,
`sanitize y = some y`.  (When the sanitized form is empty — possible only
for dot-free inputs that sanitize away completely, such as `"!"` —
re-applying `sanitize` instead fails on the empty string.) -/
theorem c6_sanitize_idempotent_on_nonempty (x y : String)
    (hxy : sanitize x = some y) (hy : y ≠ "") : sanitize y = some y := by
  unfold sanitize at hxy ⊢
  by_cases hx : x = ""
  · rw [if_pos hx] at hxy
    exact absurd hxy (by simp)
  · rw [if_neg hx] at hxy
    have hyv : y = ⟨sanitizeCore x.data⟩ := by
      have := Option.some.inj hxy
      exact this.symm
    rw [if_neg hy]
    rw [hyv]
    show some (⟨sanitizeCore (sanitizeCore x.data)⟩ : String) = _
    rw [sanitizeCore_idem]

/-- C6, witness: idempotence at a concrete sanitized output. -/
theorem c6_sanitize_idempotent_witness : sanitize "my-file.md" = some "my-file.md" :=
  c6_sanitize_idempotent_on_nonempty "My File.md" "my-file.md" (by decide) (by decide)

/-! ## C10: the force-created `README.md` -/

theorem sanitizeCore_head_not_upper (l : List Char) (c : Char) (cs : List Char)
    (h : sanitizeCore l = c :: cs) (hc : 65 ≤ c.toNat ∧ c.toNat ≤ 90) : False := by
  unfold sanitizeCore at h
  cases hsb : sanitizeBase (splitExt l).1 with
  | cons d ds =>
    rw [hsb, List.cons_append] at h
    have hdc : d = c := by
      injection h
    have hmem : d ∈ sanitizeBase (splitExt l).1 := by
      rw [hsb]
      exact List.mem_cons_self d ds
    have hall := mem_sanitizeBase_allowed (splitExt l).1 d hmem
    subst hdc
    rcases allowed_ranges hall with h1 | h1 | h1 <;> omega
  | nil =>
    rw [hsb, List.nil_append] at h
    rcases splitExt_ext_cases l with h2 | ⟨er, h2, _⟩
    · rw [h2] at h
      exact absurd h (by simp)
    · rw [h2] at h
      have hdot : '.' = c := by
        injection h
      have hcn : c.toNat = 46 := by
        rw [← hdot]
        rfl
      omega

theorem finalFileName_ne_readme (nc : NumberingConfig) (l : List Char) (i : Nat) :
    finalFileName nc ⟨sanitizeCore l⟩ i ≠ "README.md" := by
  unfold finalFileName
  by_cases he : nc.enabled = true
  · rw [if_pos he]
    intro h
    have hmem : '_' ∈ (getNumberedName nc ⟨sanitizeCore l⟩ i).data := by
      unfold getNumberedName
      rw [String.data_append, String.data_append]
      exact List.mem_append.mpr (Or.inl (List.mem_append.mpr (Or.inr (by decide))))
    rw [h] at hmem
    exact absurd hmem (by decide)
  · rw [if_neg he]
    intro h
    have hd : sanitizeCore l = "README.md".data := congrArg String.data h
    have hr : "README.md".data = 'R' :: "EADME.md".data := rfl
    rw [hr] at hd
    exact sanitizeCore_head_not_upper l 'R' _ hd (by decide)

theorem find?_pred_of_eq_some {A : Type} (f : A → Bool) (l : List A) (a : A)
    (h : l.find? f = some a) : f a = true :=
  List.find?_some h

theorem lookupFile_handlerCreate_other (k : HandlerKind) (p : FsPath) (c : String)
    (s : SimState) (q : FsPath) (hq : q ≠ p) :
    (handlerCreate k p c s).fs.lookupFile q = s.fs.lookupFile q := by
  cases k with
  | interactive =>
    show ((s.fs.mkdirParents p.dropLast).writeFile p c).lookupFile q = s.fs.lookupFile q
    rw [lookupFile_writeFile_other _ _ _ _ hq]
    rfl
  | silent =>
    show ((s.fs.mkdirParents p.dropLast).writeFile p c).lookupFile q = s.fs.lookupFile q
    rw [lookupFile_writeFile_other _ _ _ _ hq]
    rfl
  | dryRun => rfl

theorem lookupFile_createFile_readme (cfg : StructureConfig) (k : HandlerKind)
    (docsDir : FsPath) (f : String) (i : Nat) (s : SimState) :
    (createFile cfg k docsDir f i s).2.fs.lookupFile (docsDir ++ ["README.md"]) =
      s.fs.lookupFile (docsDir ++ ["README.md"]) := by
  cases hs : sanitize f with
  | none =>
    have hred : createFile cfg k docsDir f i s =
        (some (MErr.valueError "Filename cannot be empty"), s) := by
      unfold createFile
      rw [hs]
    rw [hred]
  | some sanitized =>
    have hsv : sanitized = ⟨sanitizeCore f.data⟩ := by
      unfold sanitize at hs
      by_cases hf : f = ""
      · rw [if_pos hf] at hs
        exact absurd hs (by simp)
      · rw [if_neg hf] at hs
        exact (Option.some.inj hs).symm
    have hne : docsDir ++ ["README.md"] ≠ docsDir ++ [finalFileName cfg.numbering sanitized i] := by
      intro hcontra
      have h2 := List.append_cancel_left hcontra
      have h3 : "README.md" = finalFileName cfg.numbering sanitized i := by
        injection h2
      apply finalFileName_ne_readme cfg.numbering f.data i
      rw [← hsv]
      exact h3.symm
    have hred : createFile cfg k docsDir f i s =
        (if (cfg.useMarkdownHeadings && strEndsWith f ".md") = true then
          match to_title sanitized with
          | none => (some (MErr.valueError "Filename cannot be empty"), s)
          | some title =>
            (none, handlerCreate k (docsDir ++ [finalFileName cfg.numbering sanitized i])
              ("# " ++ title ++ "\n") s)
        else
          (none,
            handlerCreate k (docsDir ++ [finalFileName cfg.numbering sanitized i]) "" s)) := by
      unfold createFile
      rw [hs]
    rw [hred]
    by_cases hb : (cfg.useMarkdownHeadings && strEndsWith f ".md") = true
    · rw [if_pos hb]
      cases ht : to_title sanitized with
      | none => rfl
      | some title => exact lookupFile_handlerCreate_other k _ _ s _ hne
    · rw [if_neg hb]
      exact lookupFile_handlerCreate_other k _ _ s _ hne

theorem lookupFile_createFilesLoop_readme (cfg : StructureConfig) (k : HandlerKind)
    (docsDir : FsPath) :
    ∀ (files : List String) (i : Nat) (s : SimState),
    (createFilesLoop cfg k docsDir files i s).2.fs.lookupFile (docsDir ++ ["README.md"]) =
      s.fs.lookupFile (docsDir ++ ["README.md"]) := by
  intro files
  induction files with
  | nil =>
    intro i s
    rfl
  | cons f rest ih =>
    intro i s
    have hpres := lookupFile_createFile_readme cfg k docsDir f i s
    unfold createFilesLoop
    cases hcf : createFile cfg k docsDir f i s with
    | mk o t =>
      rw [hcf] at hpres
      cases o with
      | none =>
        show (createFilesLoop cfg k docsDir rest (i + 1) t).2.fs.lookupFile
          (docsDir ++ ["README.md"]) = _
        rw [ih (i + 1) t]
        exact hpres
      | some e =>
        exact hpres

/-- C10.  `_create_top_level_files` (manager.py lines 130-146) always
ensures an unnumbered file named exactly `README.md` at the target root —
regardless of the numbering policy, the configured `top_level_files` list
or the rest of the configuration: when no `README.md` exists it is
created empty (through the handler; the interactive and silent handlers
both write it), and when one exists its content is left untouched; the
configured top-level files, which are created afterwards, can never
collide with it because their final names are sanitized (lower-cased) and
optionally digit-prefixed. -/
theorem c10_readme_always_ensured (cfg : StructureConfig) (k : HandlerKind)
    (docsDir : FsPath) (s : SimState) (hk : k ≠ HandlerKind.dryRun) :
    (s.fs.pathExists (docsDir ++ ["README.md"]) = false →
      (createTopLevelFiles cfg k docsDir s).2.fs.lookupFile (docsDir ++ ["README.md"]) =
        some "") ∧
    (∀ c, s.fs.lookupFile (docsDir ++ ["README.md"]) = some c →
      (createTopLevelFiles cfg k docsDir s).2.fs.lookupFile (docsDir ++ ["README.md"]) =
        some c) := by
  unfold createTopLevelFiles
  constructor
  · intro hnex
    rw [if_neg (by simp [hnex])]
    rw [lookupFile_createFilesLoop_readme]
    cases k with
    | interactive =>
      show ((s.fs.mkdirParents (docsDir ++ ["README.md"]).dropLast).writeFile
        (docsDir ++ ["README.md"]) "").lookupFile (docsDir ++ ["README.md"]) = some ""
      exact lookupFile_writeFile_self _ _ _
    | silent =>
      show ((s.fs.mkdirParents (docsDir ++ ["README.md"]).dropLast).writeFile
        (docsDir ++ ["README.md"]) "").lookupFile (docsDir ++ ["README.md"]) = some ""
      exact lookupFile_writeFile_self _ _ _
    | dryRun => exact absurd rfl hk
  · intro c hc
    have hfile : s.fs.isFile (docsDir ++ ["README.md"]) = true := by
      unfold FS.lookupFile at hc
      unfold FS.isFile
      cases hf : s.fs.files.find? (fun e => e.1 == (docsDir ++ ["README.md"])) with
      | none =>
        rw [hf] at hc
        exact absurd hc (by simp)
      | some e =>
        rw [List.any_eq_true]
        exact ⟨e, List.mem_of_find?_eq_some hf,
          find?_pred_of_eq_some (fun e => e.1 == (docsDir ++ ["README.md"])) s.fs.files e hf⟩
    have hex : s.fs.pathExists (docsDir ++ ["README.md"]) = true := by
      unfold FS.pathExists
      rw [Bool.or_eq_true]
      exact Or.inl hfile
    rw [if_pos hex]
    rw [lookupFile_createFilesLoop_readme]
    exact hc

/-- C10, witness: an existing `README.md` survives `_create_top_level_files`
unchanged under the full example configuration. -/
theorem c10_readme_always_ensured_witness :
    (createTopLevelFiles cfg5h .silent ["docs"] c10State).2.fs.lookupFile
      (["docs"] ++ ["README.md"]) = some "keep" :=
  (c10_readme_always_ensured cfg5h .silent ["docs"] c10State (by decide)).2 "keep" (by decide)
